import Mathlib

/-!
Shallow embedding of the fadecandy LED effect framework
(`examples/cpp/lib/effect.h`): the `PixelInfo` data model, the
`EffectRunner` state, layout loading (`setLayout`), and the frame
pipeline (`doFrame(float)` and the zero-argument `doFrame()`).

Machine reals (`float`) are modelled by `ℚ`; byte buffers by `List Nat`;
observable side effects of a frame step (effect invocations, the
transport write, the rate-limiting sleep) by an explicit event trace.
The layout parser (rapidjson) and the OPC transport client live outside
the embedded source; the few facts about them that the runner depends on
are modelled from the spec and marked as such below.
-/

/-- JSON-like document values, as produced by the layout parser and
inspected by `effect.h` (IsObject, IsArray, array elements, object
members, numeric values). -/
inductive Json where
  | null
  | bool (b : Bool)
  | num (q : ℚ)
  | str (s : String)
  | arr (elems : List Json)
  | obj (fields : List (String × Json))

/-- Value.IsArray. -/
def Json.isArray : Json → Bool
  | .arr _ => true
  | _ => false

/-- Value.IsObject. -/
def Json.isObject : Json → Bool
  | .obj _ => true
  | _ => false

/-- Value.IsNumber. -/
def Json.isNum : Json → Bool
  | .num _ => true
  | _ => false

/-- Modelled from the spec: the parser collaborator (rapidjson, outside
the embedded source) supports getting an object field by name; a lookup
that finds no such member reads as a null value, which the per-pixel
constructor then treats as a missing point (spec section 7: missing
coordinates default to 0). -/
def Json.getField : Json → String → Json
  | .obj fields, k =>
      match fields.find? (fun f => f.1 == k) with
      | some f => f.2
      | none => .null
  | _, _ => .null

/-- Modelled from the spec: the parser collaborator exposes a
get-numeric-value operation (GetDouble); per spec section 7, a
wrong-typed coordinate silently degrades to 0 rather than failing the
load. -/
def Json.getDouble : Json → ℚ
  | .num q => q
  | _ => 0

/-- The object key used for pixel coordinates in a layout entry. -/
def pointKey : String := "point"

/-- Information about one LED pixel (class PixelInfo). -/
structure PixelInfo where
  x : ℚ
  y : ℚ
  z : ℚ
  index : Nat
  layout : Json

/-- One coordinate from a layout entry, mirroring the PixelInfo
constructor: the coordinate starts at 0 and is overwritten from
point[i].GetDouble() only when the entry is an object whose point member
is an array with more than i elements. -/
def pointCoord (layout : Json) (i : Nat) : ℚ :=
  match layout with
  | .obj fields =>
      match (Json.obj fields).getField pointKey with
      | .arr ps => if i + 1 ≤ ps.length then (ps.getD i Json.null).getDouble else 0
      | _ => 0
  | _ => 0

/-- PixelInfo::PixelInfo(unsigned index, const Value and layout). -/
def mkPixelInfo (index : Nat) (layout : Json) : PixelInfo :=
  { x := pointCoord layout 0
    y := pointCoord layout 1
    z := pointCoord layout 2
    index := index
    layout := layout }

/-- The mutable state of an EffectRunner. The Effect pointer carries no
modelled data of its own (the per-frame colour function is passed to the
frame step explicitly), so only its null-ness is recorded, which is what
the guard in doFrame(float) reads. -/
structure Runner where
  minTimeDelta : ℚ
  layout : Json
  effectSet : Bool
  lastTime : ℚ
  frameBuffer : List Nat
  pixelInfo : List PixelInfo

/-- Modelled from the spec: the OPC packet header (opcclient.h, outside
the embedded source) is a fixed-size prefix of the frame buffer. -/
def headerSize : Nat := 4

/-- Modelled from the spec: the command code for a set-all-pixel-colors
packet. -/
def cmdSetPixelColors : Nat := 0

/-- Modelled from the spec: OPCClient::Header::view(buffer).init(channel,
command, length) writes the fixed-size header at the start of the
buffer: channel byte, command byte, then the payload length split into a
high and a low base-256 digit. -/
def headerBytes (channel command length : Nat) : List Nat :=
  [channel, command, length / 256, length % 256]

/-- The payload length declared by the header at the front of a frame
buffer (decoding the two length digits written by `headerBytes`). -/
def headerLenField (fb : List Nat) : Nat :=
  fb.getD 2 0 * 256 + fb.getD 3 0

/-- std::vector resize: keep the existing prefix, zero-fill any
extension. -/
def resizeTo (l : List Nat) (n : Nat) : List Nat :=
  l.take n ++ List.replicate (n - l.length) 0

/-- Truncation of a rational toward zero: the C conversion from a
floating value to an integer type. -/
def truncQ (q : ℚ) : ℤ := if 0 ≤ q then ⌊q⌋ else ⌈q⌉

/-- One output byte of the quantizer in doFrame(float):
std::min(255, std::max(0, int(rgb * 255 + 0.5))). -/
def quantizeByte (v : ℚ) : Nat :=
  (min 255 (max 0 (truncQ (v * 255 + 1 / 2)))).toNat

/-- Observable actions of one frame step, in program order. -/
inductive Event where
  | nextFrame (timeDelta : ℚ)
  | calcPixel (pos : Nat)
  | opcWrite (buffer : List Nat)
  | sleepUs (us : ℤ)

/-- Whether an event is the rate-limiting sleep. -/
def Event.isSleep : Event → Bool
  | .sleepUs _ => true
  | _ => false

/-- The three payload bytes produced for one pixel. -/
def pixelBytes (rgb : ℚ × ℚ × ℚ) : List Nat :=
  [quantizeByte rgb.1, quantizeByte rgb.2.1, quantizeByte rgb.2.2]

/-- The per-pixel loop of doFrame(float): for each PixelInfo, rgb starts
at (0,0,0), calculatePixel runs only when the layout node is an object,
and three quantized bytes are appended; `pos` is the list position of
the current pixel, recorded in the calcPixel event. -/
def renderPixels (f : PixelInfo → ℚ × ℚ × ℚ) :
    List PixelInfo → Nat → List Nat × List Event
  | [], _ => ([], [])
  | p :: rest, pos =>
      let rgb := if p.layout.isObject then f p else (0, 0, 0)
      let evs : List Event :=
        if p.layout.isObject then [.calcPixel pos] else []
      let r := renderPixels f rest (pos + 1)
      (pixelBytes rgb ++ r.1, evs ++ r.2)

/-- EffectRunner::doFrame(float timeDelta). Returns the new runner state
and the trace of observable actions. `f` is the per-pixel colour
function of the currently installed effect for this frame. -/
def doFrameD (f : PixelInfo → ℚ × ℚ × ℚ) (s : Runner) (timeDelta : ℚ) :
    Runner × List Event :=
  if s.effectSet = true ∧ s.layout.isArray = true then
    let r := renderPixels f s.pixelInfo 0
    let fb := s.frameBuffer.take headerSize ++ r.1
      ++ s.frameBuffer.drop (headerSize + r.1.length)
    let sleepEvs : List Event :=
      if timeDelta < s.minTimeDelta then
        [.sleepUs (truncQ ((s.minTimeDelta - timeDelta) * 1000000))]
      else []
    ({ s with frameBuffer := fb },
      .nextFrame timeDelta :: (r.2 ++ .opcWrite fb :: sleepEvs))
  else (s, [])

/-- The maximum timestep of the zero-argument doFrame (0.1 seconds). -/
def maxStep : ℚ := 1 / 10

/-- EffectRunner::doFrame(): measure elapsed time against the recorded
last-frame timestamp, record `now`, clamp the delta to `maxStep`, and
delegate. `now` is the sampled wall-clock time in seconds. -/
def doFrame0 (f : PixelInfo → ℚ × ℚ × ℚ) (s : Runner) (now : ℚ) :
    Runner × List Event :=
  let delta := now - s.lastTime
  let s1 := { s with lastTime := now }
  let delta1 := if delta > maxStep then maxStep else delta
  doFrameD f s1 delta1

/-- The possible outcomes of opening and parsing the layout file, as seen
by setLayout: fopen fails; the parse fails; or the parse succeeds with
some document. -/
inductive LoadInput where
  | noFile
  | parseError
  | parsed (doc : Json)

/-- The PixelInfo construction loop of setLayout, with its running
index. -/
def buildPixels : List Json → Nat → List PixelInfo
  | [], _ => []
  | v :: rest, i => mkPixelInfo i v :: buildPixels rest (i + 1)

/-- EffectRunner::setLayout. The parse target is the member document
itself (layout.ParseStream at effect.h line 157), so any call that
reaches the parser replaces the stored document before the error checks
run. Modelled from the spec for the parser collaborator (outside the
embedded source): a failed parse leaves the target document cleared
(null root) rather than holding the previous document. -/
def setLayout (s : Runner) (input : LoadInput) : Bool × Runner :=
  match input with
  | .noFile => (false, s)
  | .parseError => (false, { s with layout := Json.null })
  | .parsed (Json.arr xs) =>
      let frameBytes := 3 * xs.length
      let resized := resizeTo s.frameBuffer (headerSize + frameBytes)
      let fb := headerBytes 0 cmdSetPixelColors frameBytes
        ++ resized.drop headerSize
      (true,
        { s with
            layout := Json.arr xs
            frameBuffer := fb
            pixelInfo := buildPixels xs 0 })
  | .parsed doc => (false, { s with layout := doc })

/-- EffectRunner::setEffect (records whether the effect pointer is
non-null). -/
def setEffect (s : Runner) (installed : Bool) : Runner :=
  { s with effectSet := installed }

/-- EffectRunner::EffectRunner(): zero minTimeDelta, null effect pointer,
zeroed lastTime, empty (default) document and containers. -/
def initRunner : Runner :=
  { minTimeDelta := 0
    layout := Json.null
    effectSet := false
    lastTime := 0
    frameBuffer := []
    pixelInfo := [] }

/-- A sequence of time-delta frame steps, each with its own per-pixel
colour function (the effect may change its answer between frames) and
its own timeDelta. -/
def runFrames (steps : List ((PixelInfo → ℚ × ℚ × ℚ) × ℚ)) (s : Runner) :
    Runner :=
  steps.foldl (fun t st => (doFrameD st.1 t st.2).1) s

/-- A concrete two-pixel layout: one wired pixel with a point, one
unwired (null) slot. -/
def demoLayout : Json :=
  Json.arr [Json.obj [(pointKey, Json.arr [Json.num 1, Json.num 2, Json.num 3])],
            Json.null]

/-- A runner that has an effect installed and `demoLayout` loaded. -/
def demoRunner : Runner :=
  (setLayout (setEffect initRunner true) (.parsed demoLayout)).2

/-- A concrete per-pixel colour function exercising in-range,
half-integer and out-of-range channels. -/
def demoEffect : PixelInfo → ℚ × ℚ × ℚ :=
  fun _ => (1, 1 / 2, -(1 / 10))

/-- `demoRunner` with a 20 fps frame-rate limit
(setMaxFrameRate 20, i.e. minTimeDelta = 1/20). -/
def rateRunner : Runner :=
  { demoRunner with minTimeDelta := 1 / 20 }

theorem pixelBytes_length (rgb : ℚ × ℚ × ℚ) : (pixelBytes rgb).length = 3 := rfl

theorem renderPixels_fst_length (f : PixelInfo → ℚ × ℚ × ℚ) (l : List PixelInfo)
    (pos : Nat) : (renderPixels f l pos).1.length = 3 * l.length := by
  induction l generalizing pos with
  | nil => rfl
  | cons p rest ih =>
    simp only [renderPixels, List.length_append, pixelBytes_length, ih,
      List.length_cons]
    ring

theorem renderPixels_getD (f : PixelInfo → ℚ × ℚ × ℚ) (l : List PixelInfo)
    (pos k c : Nat) (hk : k < l.length) (hc : c < 3) :
    (renderPixels f l pos).1.getD (3 * k + c) 0 =
      (pixelBytes (if (l.get ⟨k, hk⟩).layout.isObject then f (l.get ⟨k, hk⟩)
        else (0, 0, 0))).getD c 0 := by
  induction l generalizing pos k with
  | nil => exact absurd hk (by simp)
  | cons p rest ih =>
    cases k with
    | zero =>
      simp only [renderPixels]
      rw [Nat.mul_zero, Nat.zero_add]
      rw [List.getD_append _ _ _ _ (by rw [pixelBytes_length]; exact hc)]
      rfl
    | succ kp =>
      have hkp : kp < rest.length := Nat.lt_of_succ_lt_succ hk
      have hmain := ih (pos + 1) kp hkp
      have hcons : (p :: rest).get ⟨kp + 1, hk⟩ = rest.get ⟨kp, hkp⟩ := rfl
      rw [hcons]
      simp only [renderPixels]
      rw [show 3 * (kp + 1) + c = 3 + (3 * kp + c) by ring]
      rw [List.getD_append_right _ _ _ _
        (by rw [pixelBytes_length]; exact Nat.le_add_right _ _)]
      rw [pixelBytes_length, Nat.add_sub_cancel_left]
      exact hmain

theorem renderPixels_calcPixel_ge (f : PixelInfo → ℚ × ℚ × ℚ) (l : List PixelInfo)
    (pos j : Nat) (hj : j < pos) :
    Event.calcPixel j ∉ (renderPixels f l pos).2 := by
  induction l generalizing pos with
  | nil => simp [renderPixels]
  | cons p rest ih =>
    intro hmem
    simp only [renderPixels, List.mem_append] at hmem
    rcases hmem with h | h
    · revert h
      split
      · intro h
        have he := List.mem_singleton.mp h
        injection he with hjp
        omega
      · intro h
        simp at h
    · exact ih (pos + 1) (Nat.lt_succ_of_lt hj) h

theorem renderPixels_calcPixel_not_mem (f : PixelInfo → ℚ × ℚ × ℚ)
    (l : List PixelInfo) (pos k : Nat) (hk : k < l.length)
    (hobj : (l.get ⟨k, hk⟩).layout.isObject = false) :
    Event.calcPixel (pos + k) ∉ (renderPixels f l pos).2 := by
  induction l generalizing pos k with
  | nil => exact absurd hk (by simp)
  | cons p rest ih =>
    intro hmem
    simp only [renderPixels, List.mem_append] at hmem
    cases k with
    | zero =>
      have hp : p.layout.isObject = false := hobj
      rcases hmem with h | h
      · rw [hp] at h
        simp at h
      · exact renderPixels_calcPixel_ge f rest (pos + 1) (pos + 0) (by omega) h
    | succ kp =>
      have hkp : kp < rest.length := Nat.lt_of_succ_lt_succ hk
      have hobjp : (rest.get ⟨kp, hkp⟩).layout.isObject = false := hobj
      rcases hmem with h | h
      · revert h
        split
        · intro h
          have he := List.mem_singleton.mp h
          injection he with hjp
          omega
        · intro h
          simp at h
      · rw [show pos + (kp + 1) = (pos + 1) + kp by omega] at h
        exact ih (pos + 1) kp hkp hobjp h

theorem renderPixels_no_sleep (f : PixelInfo → ℚ × ℚ × ℚ) (l : List PixelInfo)
    (pos : Nat) : (renderPixels f l pos).2.filter Event.isSleep = [] := by
  induction l generalizing pos with
  | nil => rfl
  | cons p rest ih =>
    simp only [renderPixels, List.filter_append, ih]
    split <;> rfl

theorem buildPixels_length (l : List Json) (i : Nat) :
    (buildPixels l i).length = l.length := by
  induction l generalizing i with
  | nil => rfl
  | cons v rest ih => simp [buildPixels, ih]

theorem buildPixels_get_index (l : List Json) (i k : Nat)
    (hk : k < (buildPixels l i).length) :
    ((buildPixels l i).get ⟨k, hk⟩).index = i + k := by
  induction l generalizing i k with
  | nil => exact absurd hk (by simp [buildPixels])
  | cons v rest ih =>
    cases k with
    | zero => rfl
    | succ kp =>
      have hkp : kp < (buildPixels rest (i + 1)).length := by
        have := hk
        simp only [buildPixels, List.length_cons] at this
        omega
      have hrec := ih (i + 1) kp hkp
      rw [show i + (kp + 1) = (i + 1) + kp by omega]
      exact hrec

theorem resizeTo_length (l : List Nat) (n : Nat) : (resizeTo l n).length = n := by
  simp only [resizeTo, List.length_append, List.length_take, List.length_replicate]
  omega

theorem setLayout_arr (s : Runner) (xs : List Json) :
    setLayout s (.parsed (Json.arr xs)) =
      (true,
        { s with
            layout := Json.arr xs
            frameBuffer := headerBytes 0 cmdSetPixelColors (3 * xs.length)
              ++ (resizeTo s.frameBuffer (headerSize + 3 * xs.length)).drop headerSize
            pixelInfo := buildPixels xs 0 }) := rfl

theorem setLayout_arr_fb_length (s : Runner) (xs : List Json) :
    (setLayout s (.parsed (Json.arr xs))).2.frameBuffer.length =
      headerSize + 3 * xs.length := by
  rw [setLayout_arr]
  simp only [List.length_append, List.length_drop, resizeTo_length, headerBytes,
    List.length_cons, List.length_nil, headerSize]
  omega

theorem doFrameD_pos (f : PixelInfo → ℚ × ℚ × ℚ) (s : Runner) (Δ : ℚ)
    (hset : s.effectSet = true) (harr : s.layout.isArray = true) :
    doFrameD f s Δ =
      ({ s with frameBuffer := s.frameBuffer.take headerSize
          ++ (renderPixels f s.pixelInfo 0).1
          ++ s.frameBuffer.drop (headerSize + (renderPixels f s.pixelInfo 0).1.length) },
        Event.nextFrame Δ :: ((renderPixels f s.pixelInfo 0).2
          ++ Event.opcWrite (s.frameBuffer.take headerSize
              ++ (renderPixels f s.pixelInfo 0).1
              ++ s.frameBuffer.drop (headerSize + (renderPixels f s.pixelInfo 0).1.length))
            :: (if Δ < s.minTimeDelta then
                  [Event.sleepUs (truncQ ((s.minTimeDelta - Δ) * 1000000))]
                else []))) := by
  rw [doFrameD, if_pos ⟨hset, harr⟩]

theorem doFrameD_preserves (f : PixelInfo → ℚ × ℚ × ℚ) (s : Runner) (Δ : ℚ)
    (hlen : s.frameBuffer.length = headerSize + 3 * s.pixelInfo.length) :
    (doFrameD f s Δ).1.frameBuffer.take headerSize = s.frameBuffer.take headerSize ∧
    (doFrameD f s Δ).1.frameBuffer.length = s.frameBuffer.length ∧
    (doFrameD f s Δ).1.pixelInfo = s.pixelInfo := by
  rw [doFrameD]
  split
  · refine ⟨?_, ?_, rfl⟩
    · show (s.frameBuffer.take headerSize ++ (renderPixels f s.pixelInfo 0).1
        ++ s.frameBuffer.drop (headerSize + (renderPixels f s.pixelInfo 0).1.length)).take
          headerSize = s.frameBuffer.take headerSize
      rw [List.append_assoc]
      exact List.take_left' (by rw [List.length_take]; omega)
    · show (s.frameBuffer.take headerSize ++ (renderPixels f s.pixelInfo 0).1
        ++ s.frameBuffer.drop (headerSize + (renderPixels f s.pixelInfo 0).1.length)).length
          = s.frameBuffer.length
      simp only [List.length_append, List.length_take, List.length_drop,
        renderPixels_fst_length]
      omega
  · exact ⟨rfl, rfl, rfl⟩

theorem runFrames_preserves (steps : List ((PixelInfo → ℚ × ℚ × ℚ) × ℚ)) (t : Runner)
    (hlen : t.frameBuffer.length = headerSize + 3 * t.pixelInfo.length) :
    (runFrames steps t).frameBuffer.take headerSize = t.frameBuffer.take headerSize ∧
    (runFrames steps t).frameBuffer.length = t.frameBuffer.length ∧
    (runFrames steps t).pixelInfo = t.pixelInfo := by
  induction steps generalizing t with
  | nil => exact ⟨rfl, rfl, rfl⟩
  | cons st rest ih =>
    have h1 := doFrameD_preserves st.1 t st.2 hlen
    have hlen1 : (doFrameD st.1 t st.2).1.frameBuffer.length =
        headerSize + 3 * (doFrameD st.1 t st.2).1.pixelInfo.length := by
      rw [h1.2.1, h1.2.2]
      exact hlen
    have h2 := ih ((doFrameD st.1 t st.2).1) hlen1
    have hrw : runFrames (st :: rest) t = runFrames rest (doFrameD st.1 t st.2).1 := rfl
    rw [hrw]
    exact ⟨h2.1.trans h1.1, h2.2.1.trans h1.2.1, h2.2.2.trans h1.2.2⟩

theorem doFrameD_payload_getD (f : PixelInfo → ℚ × ℚ × ℚ) (s : Runner) (Δ : ℚ)
    (k c : Nat) (hset : s.effectSet = true) (harr : s.layout.isArray = true)
    (hbuf : headerSize ≤ s.frameBuffer.length)
    (hk : k < s.pixelInfo.length) (hc : c < 3) :
    (doFrameD f s Δ).1.frameBuffer.getD (headerSize + (3 * k + c)) 0 =
      (pixelBytes (if (s.pixelInfo.get ⟨k, hk⟩).layout.isObject then
        f (s.pixelInfo.get ⟨k, hk⟩) else (0, 0, 0))).getD c 0 := by
  rw [doFrameD_pos f s Δ hset harr]
  show (s.frameBuffer.take headerSize ++ (renderPixels f s.pixelInfo 0).1
    ++ s.frameBuffer.drop (headerSize + (renderPixels f s.pixelInfo 0).1.length)).getD
      (headerSize + (3 * k + c)) 0 = _
  rw [List.append_assoc]
  have htake : (s.frameBuffer.take headerSize).length = headerSize := by
    rw [List.length_take]
    omega
  rw [List.getD_append_right _ _ _ _ (by rw [htake]; exact Nat.le_add_right _ _)]
  rw [htake, Nat.add_sub_cancel_left]
  rw [List.getD_append _ _ _ _ (by rw [renderPixels_fst_length]; omega)]
  exact renderPixels_getD f s.pixelInfo 0 k c hk hc

theorem doFrameD_calcPixel_not_mem (f : PixelInfo → ℚ × ℚ × ℚ) (s : Runner) (Δ : ℚ)
    (k : Nat) (hk : k < s.pixelInfo.length)
    (hobj : (s.pixelInfo.get ⟨k, hk⟩).layout.isObject = false) :
    Event.calcPixel k ∉ (doFrameD f s Δ).2 := by
  rw [doFrameD]
  split
  · intro hmem
    simp only [List.mem_cons, List.mem_append] at hmem
    rcases hmem with h1 | h1 | h1 | h1
    · exact Event.noConfusion h1
    · have hnot := renderPixels_calcPixel_not_mem f s.pixelInfo 0 k hk hobj
      rw [Nat.zero_add] at hnot
      exact hnot h1
    · exact Event.noConfusion h1
    · revert h1
      split
      · intro h1
        have he := List.mem_singleton.mp h1
        exact Event.noConfusion he
      · intro h1
        simp at h1
  · simp

theorem quantizeByte_zero : quantizeByte 0 = 0 := by
  have hv : (0 : ℚ) * 255 + 1 / 2 = 1 / 2 := by norm_num
  have ht : truncQ ((0 : ℚ) * 255 + 1 / 2) = 0 := by
    rw [truncQ, hv, if_pos (by norm_num)]
    norm_num
  rw [quantizeByte, ht]
  decide

theorem quantizeByte_one : quantizeByte 1 = 255 := by
  have ht : truncQ ((1 : ℚ) * 255 + 1 / 2) = 255 := by
    rw [truncQ, if_pos (by norm_num)]
    norm_num
  rw [quantizeByte, ht]
  decide

theorem quantizeByte_negTenth : quantizeByte (-(1 / 10)) = 0 := by
  have hv : (-(1 / 10) : ℚ) * 255 + 1 / 2 = ((-25 : ℤ) : ℚ) := by norm_num
  have ht : truncQ ((-(1 / 10) : ℚ) * 255 + 1 / 2) = -25 := by
    rw [truncQ, hv, if_neg (by norm_num), Int.ceil_intCast]
  rw [quantizeByte, ht]
  decide

theorem quantizeByte_elevenTenths : quantizeByte (11 / 10) = 255 := by
  have hv : (11 / 10 : ℚ) * 255 + 1 / 2 = ((281 : ℤ) : ℚ) := by norm_num
  have ht : truncQ ((11 / 10 : ℚ) * 255 + 1 / 2) = 281 := by
    rw [truncQ, hv, if_pos (by norm_num), Int.floor_intCast]
  rw [quantizeByte, ht]
  decide

theorem quantizeByte_half : quantizeByte (1 / 2) = 128 := by
  have hv : (1 / 2 : ℚ) * 255 + 1 / 2 = ((128 : ℤ) : ℚ) := by norm_num
  have ht : truncQ ((1 / 2 : ℚ) * 255 + 1 / 2) = 128 := by
    rw [truncQ, hv, if_pos (by norm_num), Int.floor_intCast]
  rw [quantizeByte, ht]
  decide

theorem pointCoord_not_array (j : Json) (c : Nat)
    (hna : (j.getField pointKey).isArray = false) :
    pointCoord j c = 0 := by
  cases j with
  | obj fields =>
    simp only [pointCoord]
    split
    · next ps heq =>
        rw [heq] at hna
        exact absurd hna (by simp [Json.isArray])
    · rfl
  | null => rfl
  | bool b => rfl
  | num q => rfl
  | str t => rfl
  | arr elems => rfl

theorem pointCoord_arr (j : Json) (ps : List Json) (c : Nat)
    (heq : j.getField pointKey = Json.arr ps) :
    pointCoord j c =
      if c + 1 ≤ ps.length then (ps.getD c Json.null).getDouble else 0 := by
  cases j with
  | obj fields =>
    simp only [pointCoord]
    split
    · next ps2 heq2 =>
        rw [heq] at heq2
        injection heq2 with h
        rw [h]
    · next hne =>
        exact absurd (hne ps heq) id
  | null => exact Json.noConfusion (show Json.null = Json.arr ps from heq)
  | bool b => exact Json.noConfusion (show Json.null = Json.arr ps from heq)
  | num q => exact Json.noConfusion (show Json.null = Json.arr ps from heq)
  | str t => exact Json.noConfusion (show Json.null = Json.arr ps from heq)
  | arr elems => exact Json.noConfusion (show Json.null = Json.arr ps from heq)

/-- C1 counterexample: a runner that has successfully loaded a one-entry
layout and then calls setLayout on a file parsing to the non-array
document 42. The call returns false, yet the resulting state differs
from the state before the call: the stored layout document has been
replaced by the parse target, so the previous layout is no longer in
effect. -/
theorem setLayout_failure_retains_cex :
    (setLayout (setLayout initRunner
        (.parsed (Json.arr [Json.obj []]))).2 (.parsed (Json.num 42))).1 = false ∧
    (setLayout (setLayout initRunner
        (.parsed (Json.arr [Json.obj []]))).2 (.parsed (Json.num 42))).2 ≠
      (setLayout initRunner (.parsed (Json.arr [Json.obj []]))).2 := by
  refine ⟨rfl, ?_⟩
  intro hEq
  have hl := congrArg Runner.layout hEq
  exact Json.noConfusion (show Json.num 42 = Json.arr [Json.obj []] from hl)

/-- C1 amended: every failing setLayout call returns false and leaves the
pixel list and the frame buffer exactly as they were; when fopen itself
fails the whole state is unchanged, but when the failure is a malformed
document or a non-array top-level value the stored layout document has
already been overwritten by the parse (cleared to null on a parse error,
or replaced by the parsed non-array value), so the previously loaded
layout document does not remain in effect in those two cases. -/
theorem setLayout_failure_state (s : Runner) (d : Json)
    (hd : d.isArray = false) :
    setLayout s .noFile = (false, s) ∧
    (setLayout s .parseError).1 = false ∧
    (setLayout s .parseError).2.pixelInfo = s.pixelInfo ∧
    (setLayout s .parseError).2.frameBuffer = s.frameBuffer ∧
    (setLayout s .parseError).2.layout = Json.null ∧
    (setLayout s (.parsed d)).1 = false ∧
    (setLayout s (.parsed d)).2.pixelInfo = s.pixelInfo ∧
    (setLayout s (.parsed d)).2.frameBuffer = s.frameBuffer ∧
    (setLayout s (.parsed d)).2.layout = d := by
  refine ⟨rfl, rfl, rfl, rfl, rfl, ?_, ?_, ?_, ?_⟩ <;>
    cases d <;> first
      | rfl
      | exact absurd hd (by simp [Json.isArray])

/-- C1 witness for the amended theorem, at the non-array document 42 and
the runner fresh from the constructor. -/
theorem setLayout_failure_state_w :
    (Json.num 42).isArray = false ∧
    setLayout initRunner .noFile = (false, initRunner) ∧
    (setLayout initRunner (.parsed (Json.num 42))).1 = false ∧
    (setLayout initRunner (.parsed (Json.num 42))).2.layout = Json.num 42 :=
  ⟨rfl,
   (setLayout_failure_state initRunner (Json.num 42) rfl).1,
   (setLayout_failure_state initRunner (Json.num 42) rfl).2.2.2.2.2.1,
   (setLayout_failure_state initRunner (Json.num 42) rfl).2.2.2.2.2.2.2.2⟩

/-- C3: when the effect pointer is unset or the loaded layout document is
not an array, the time-delta frame step returns the state unchanged and
produces no observable action at all: no effect call, no buffer
mutation, no transport write, no sleep. -/
theorem frameStep_noop (f : PixelInfo → ℚ × ℚ × ℚ) (s : Runner) (timeDelta : ℚ)
    (h : s.effectSet = false ∨ s.layout.isArray = false) :
    doFrameD f s timeDelta = (s, []) := by
  have hneg : ¬(s.effectSet = true ∧ s.layout.isArray = true) := by
    rintro ⟨h1, h2⟩
    rcases h with h | h
    · exact absurd (h.symm.trans h1) (by decide)
    · exact absurd (h.symm.trans h2) (by decide)
  rw [doFrameD, if_neg hneg]

/-- C3 witness: the freshly constructed runner (no effect, no layout)
steps to itself with an empty trace. -/
theorem frameStep_noop_w :
    doFrameD (fun _ => (0, 0, 0)) initRunner 1 = (initRunner, []) :=
  frameStep_noop (fun _ => (0, 0, 0)) initRunner 1 (Or.inl rfl)

/-- C4: a setLayout call on a layout array with N entries succeeds, the
constructed pixel list has exactly N elements whose index fields are
0..N-1 in list order, and the frame buffer is resized to exactly
headerSize + 3*N bytes. -/
theorem setLayout_success_shape (s : Runner) (xs : List Json) :
    (setLayout s (.parsed (Json.arr xs))).1 = true ∧
    (setLayout s (.parsed (Json.arr xs))).2.pixelInfo.length = xs.length ∧
    (∀ k (hk : k < (setLayout s (.parsed (Json.arr xs))).2.pixelInfo.length),
      ((setLayout s (.parsed (Json.arr xs))).2.pixelInfo.get ⟨k, hk⟩).index = k) ∧
    (setLayout s (.parsed (Json.arr xs))).2.frameBuffer.length =
      headerSize + 3 * xs.length := by
  refine ⟨rfl, buildPixels_length xs 0, ?_, setLayout_arr_fb_length s xs⟩
  intro k hk
  have h := buildPixels_get_index xs 0 k hk
  rwa [Nat.zero_add] at h

/-- C4 witness on a concrete two-entry layout. -/
theorem setLayout_success_shape_w :
    (setLayout initRunner (.parsed (Json.arr [Json.null, Json.obj []]))).1 = true ∧
    (setLayout initRunner
      (.parsed (Json.arr [Json.null, Json.obj []]))).2.pixelInfo.length = 2 ∧
    ((setLayout initRunner
      (.parsed (Json.arr [Json.null, Json.obj []]))).2.pixelInfo.get
        ⟨1, by decide⟩).index = 1 ∧
    (setLayout initRunner
      (.parsed (Json.arr [Json.null, Json.obj []]))).2.frameBuffer.length = 10 :=
  ⟨(setLayout_success_shape initRunner [Json.null, Json.obj []]).1,
   (setLayout_success_shape initRunner [Json.null, Json.obj []]).2.1,
   (setLayout_success_shape initRunner [Json.null, Json.obj []]).2.2.1 1 (by decide),
   (setLayout_success_shape initRunner [Json.null, Json.obj []]).2.2.2⟩

/-- C5: after a successful load of an N-entry layout the payload-length
field declared in the header equals exactly 3*N, and any number of
subsequent frame steps leaves the header bytes (the first headerSize
bytes) and the buffer length unchanged, mutating only payload bytes. -/
theorem header_stable (s : Runner) (xs : List Json)
    (steps : List ((PixelInfo → ℚ × ℚ × ℚ) × ℚ)) :
    headerLenField (setLayout s (.parsed (Json.arr xs))).2.frameBuffer =
      3 * xs.length ∧
    (runFrames steps (setLayout s (.parsed (Json.arr xs))).2).frameBuffer.take
        headerSize =
      (setLayout s (.parsed (Json.arr xs))).2.frameBuffer.take headerSize ∧
    (runFrames steps (setLayout s (.parsed (Json.arr xs))).2).frameBuffer.length =
      (setLayout s (.parsed (Json.arr xs))).2.frameBuffer.length := by
  have hlen : (setLayout s (.parsed (Json.arr xs))).2.frameBuffer.length =
      headerSize + 3 * (setLayout s (.parsed (Json.arr xs))).2.pixelInfo.length := by
    have hpl : (setLayout s (.parsed (Json.arr xs))).2.pixelInfo.length = xs.length :=
      buildPixels_length xs 0
    rw [setLayout_arr_fb_length, hpl]
  have hp := runFrames_preserves steps _ hlen
  refine ⟨?_, hp.1, hp.2.1⟩
  show headerLenField (headerBytes 0 cmdSetPixelColors (3 * xs.length)
    ++ (resizeTo s.frameBuffer (headerSize + 3 * xs.length)).drop headerSize) =
      3 * xs.length
  simp only [headerLenField, headerBytes, List.cons_append, List.nil_append,
    List.getD_cons_succ, List.getD_cons_zero]
  omega

/-- C2: each byte written to the frame buffer by the frame step is the
clamp to [0,255] of the channel value times 255 plus one half, truncated
toward zero (that is, `quantizeByte`), applied to the colour the effect
produced for that pixel (or to the 0 default); and quantizeByte maps 0
to 0, 1 to 255, -0.1 to 0, 1.1 to 255 and 0.5 to 128. -/
theorem quantization_bytes (f : PixelInfo → ℚ × ℚ × ℚ) (s : Runner) (Δ : ℚ)
    (k : Nat) (hset : s.effectSet = true) (harr : s.layout.isArray = true)
    (hbuf : headerSize ≤ s.frameBuffer.length) (hk : k < s.pixelInfo.length) :
    ((doFrameD f s Δ).1.frameBuffer.getD (headerSize + 3 * k) 0 =
        quantizeByte (if (s.pixelInfo.get ⟨k, hk⟩).layout.isObject then
          f (s.pixelInfo.get ⟨k, hk⟩) else (0, 0, 0)).1 ∧
      (doFrameD f s Δ).1.frameBuffer.getD (headerSize + 3 * k + 1) 0 =
        quantizeByte (if (s.pixelInfo.get ⟨k, hk⟩).layout.isObject then
          f (s.pixelInfo.get ⟨k, hk⟩) else (0, 0, 0)).2.1 ∧
      (doFrameD f s Δ).1.frameBuffer.getD (headerSize + 3 * k + 2) 0 =
        quantizeByte (if (s.pixelInfo.get ⟨k, hk⟩).layout.isObject then
          f (s.pixelInfo.get ⟨k, hk⟩) else (0, 0, 0)).2.2) ∧
    quantizeByte 0 = 0 ∧ quantizeByte 1 = 255 ∧ quantizeByte (-(1 / 10)) = 0 ∧
    quantizeByte (11 / 10) = 255 ∧ quantizeByte (1 / 2) = 128 := by
  refine ⟨⟨?_, ?_, ?_⟩, quantizeByte_zero, quantizeByte_one, quantizeByte_negTenth,
    quantizeByte_elevenTenths, quantizeByte_half⟩
  · exact doFrameD_payload_getD f s Δ k 0 hset harr hbuf hk (by omega)
  · exact doFrameD_payload_getD f s Δ k 1 hset harr hbuf hk (by omega)
  · exact doFrameD_payload_getD f s Δ k 2 hset harr hbuf hk (by omega)

/-- C2 witness: on the demo runner the wired pixel gets bytes quantized
from the demo effect output (1, 1/2, -1/10), with the stated concrete
quantizer values. -/
theorem quantization_bytes_w :
    (doFrameD demoEffect demoRunner 0).1.frameBuffer.getD (headerSize + 3 * 0) 0 =
      quantizeByte 1 ∧
    quantizeByte 1 = 255 ∧ quantizeByte (1 / 2) = 128 ∧ quantizeByte 0 = 0 ∧
    quantizeByte (-(1 / 10)) = 0 ∧ quantizeByte (11 / 10) = 255 :=
  ⟨(quantization_bytes demoEffect demoRunner 0 0 rfl rfl (by decide)
      (by decide)).1.1,
   (quantization_bytes demoEffect demoRunner 0 0 rfl rfl (by decide)
      (by decide)).2.2.1,
   (quantization_bytes demoEffect demoRunner 0 0 rfl rfl (by decide)
      (by decide)).2.2.2.2.2,
   (quantization_bytes demoEffect demoRunner 0 0 rfl rfl (by decide)
      (by decide)).2.1,
   (quantization_bytes demoEffect demoRunner 0 0 rfl rfl (by decide)
      (by decide)).2.2.2.1,
   (quantization_bytes demoEffect demoRunner 0 0 rfl rfl (by decide)
      (by decide)).2.2.2.2.1⟩

/-- C6: a pixel whose layout metadata node is not object-shaped gets RGB
bytes (0,0,0) in its buffer slot, the effect is never invoked for that
pixel position, and the payload still reserves 3 bytes per pixel
including this one. -/
theorem inactive_pixel (f : PixelInfo → ℚ × ℚ × ℚ) (s : Runner) (Δ : ℚ) (k : Nat)
    (hset : s.effectSet = true) (harr : s.layout.isArray = true)
    (hbuf : headerSize ≤ s.frameBuffer.length) (hk : k < s.pixelInfo.length)
    (hobj : (s.pixelInfo.get ⟨k, hk⟩).layout.isObject = false) :
    (doFrameD f s Δ).1.frameBuffer.getD (headerSize + 3 * k) 0 = 0 ∧
    (doFrameD f s Δ).1.frameBuffer.getD (headerSize + 3 * k + 1) 0 = 0 ∧
    (doFrameD f s Δ).1.frameBuffer.getD (headerSize + 3 * k + 2) 0 = 0 ∧
    Event.calcPixel k ∉ (doFrameD f s Δ).2 ∧
    (renderPixels f s.pixelInfo 0).1.length = 3 * s.pixelInfo.length := by
  have hnc : ¬((s.pixelInfo.get ⟨k, hk⟩).layout.isObject = true) := by
    rw [hobj]
    decide
  refine ⟨?_, ?_, ?_, doFrameD_calcPixel_not_mem f s Δ k hk hobj,
    renderPixels_fst_length f s.pixelInfo 0⟩
  · exact (doFrameD_payload_getD f s Δ k 0 hset harr hbuf hk (by omega)).trans
      (by rw [if_neg hnc]; exact quantizeByte_zero)
  · exact (doFrameD_payload_getD f s Δ k 1 hset harr hbuf hk (by omega)).trans
      (by rw [if_neg hnc]; exact quantizeByte_zero)
  · exact (doFrameD_payload_getD f s Δ k 2 hset harr hbuf hk (by omega)).trans
      (by rw [if_neg hnc]; exact quantizeByte_zero)

/-- C6 witness: the second demo pixel (a null layout entry) gets zero
bytes and no calculatePixel invocation. -/
theorem inactive_pixel_w :
    (doFrameD demoEffect demoRunner 0).1.frameBuffer.getD (headerSize + 3 * 1) 0 = 0 ∧
    Event.calcPixel 1 ∉ (doFrameD demoEffect demoRunner 0).2 :=
  ⟨(inactive_pixel demoEffect demoRunner 0 1 rfl rfl (by decide) (by decide)
      (by decide)).1,
   (inactive_pixel demoEffect demoRunner 0 1 rfl rfl (by decide) (by decide)
      (by decide)).2.2.2.1⟩

/-- C7: when the measured elapsed time exceeds maxStep = 0.1 s, the
zero-argument frame step passes exactly 0.1 s to the time-delta step,
and behaves identically to a call whose measured elapsed time is exactly
0.1 s. -/
theorem clamp_timestep (f : PixelInfo → ℚ × ℚ × ℚ) (s : Runner) (now : ℚ)
    (h : now - s.lastTime > maxStep) :
    maxStep = 1 / 10 ∧
    doFrame0 f s now = doFrameD f { s with lastTime := now } maxStep ∧
    doFrame0 f s now = doFrame0 f { s with lastTime := now - maxStep } now := by
  refine ⟨rfl, ?_, ?_⟩
  · show doFrameD f { s with lastTime := now }
        (if now - s.lastTime > maxStep then maxStep else now - s.lastTime) =
      doFrameD f { s with lastTime := now } maxStep
    rw [if_pos h]
  · show doFrameD f { s with lastTime := now }
        (if now - s.lastTime > maxStep then maxStep else now - s.lastTime) =
      doFrameD f { s with lastTime := now }
        (if now - (now - maxStep) > maxStep then maxStep else now - (now - maxStep))
    rw [if_pos h, show now - (now - maxStep) = maxStep by ring,
      if_neg (lt_irrefl maxStep)]

/-- C7 witness: elapsed time 1 s (measured against lastTime 0) is clamped
to maxStep. -/
theorem clamp_timestep_w :
    doFrame0 demoEffect demoRunner 1 =
      doFrameD demoEffect { demoRunner with lastTime := 1 } maxStep :=
  (clamp_timestep demoEffect demoRunner 1
    (show (1 : ℚ) - 0 > 1 / 10 by norm_num)).2.1

/-- C8: with an effect and a layout set, a frame step whose timeDelta is
below minTimeDelta performs exactly one sleep, for
(minTimeDelta - timeDelta) seconds expressed as microseconds the way
usleep receives them; a step whose timeDelta is at least minTimeDelta
performs no sleep at all. The filter characterization makes this the
only blocking mechanism in the step. -/
theorem rate_limit_sleep (f : PixelInfo → ℚ × ℚ × ℚ) (s : Runner) (Δ : ℚ)
    (hset : s.effectSet = true) (harr : s.layout.isArray = true) :
    (Δ < s.minTimeDelta →
      (doFrameD f s Δ).2.filter Event.isSleep =
        [Event.sleepUs (truncQ ((s.minTimeDelta - Δ) * 1000000))]) ∧
    (s.minTimeDelta ≤ Δ →
      (doFrameD f s Δ).2.filter Event.isSleep = []) := by
  rw [doFrameD_pos f s Δ hset harr]
  constructor
  · intro hlt
    simp [List.filter_cons, List.filter_append, Event.isSleep,
      renderPixels_no_sleep, hlt]
  · intro hge
    have hnl : ¬(Δ < s.minTimeDelta) := not_lt.mpr hge
    simp [List.filter_cons, List.filter_append, Event.isSleep,
      renderPixels_no_sleep, hnl]

/-- C8 witness: minTimeDelta = 1/20 (a 20 fps cap) and timeDelta = 1/100
produce exactly one sleep of 40000 microseconds, i.e. 0.04 seconds. -/
theorem rate_limit_sleep_w :
    (doFrameD demoEffect rateRunner (1 / 100)).2.filter Event.isSleep =
      [Event.sleepUs 40000] := by
  have h := (rate_limit_sleep demoEffect rateRunner (1 / 100) rfl rfl).1
    (show (1 / 100 : ℚ) < 1 / 20 by norm_num)
  rw [h]
  have ht : truncQ ((rateRunner.minTimeDelta - 1 / 100) * 1000000) = 40000 := by
    show truncQ ((1 / 20 - 1 / 100 : ℚ) * 1000000) = 40000
    rw [truncQ, if_pos (by norm_num)]
    norm_num
  rw [ht]

/-- C9: a layout entry whose point data is missing or malformed still
yields a PixelInfo: if the point member is not an array all coordinates
are 0; if it is an array with fewer than 3 elements the missing trailing
coordinates are 0; a wrong-typed element reads as numeric value 0; and a
layout load whose entries are arbitrary (including malformed) documents
still succeeds. -/
theorem point_malformed_defaults (s : Runner) (i : Nat) (j e : Json)
    (ps xs : List Json) :
    ((j.getField pointKey).isArray = false →
      mkPixelInfo i j = { x := 0, y := 0, z := 0, index := i, layout := j }) ∧
    (j.getField pointKey = Json.arr ps →
      (ps.length < 3 → (mkPixelInfo i j).z = 0) ∧
      (ps.length < 2 → (mkPixelInfo i j).y = 0) ∧
      (ps.length < 1 → (mkPixelInfo i j).x = 0) ∧
      (1 ≤ ps.length → (mkPixelInfo i j).x = (ps.getD 0 Json.null).getDouble)) ∧
    (e.isNum = false → e.getDouble = 0) ∧
    (setLayout s (.parsed (Json.arr xs))).1 = true := by
  refine ⟨?_, ?_, ?_, rfl⟩
  · intro hna
    rw [mkPixelInfo, pointCoord_not_array j 0 hna, pointCoord_not_array j 1 hna,
      pointCoord_not_array j 2 hna]
  · intro heq
    refine ⟨?_, ?_, ?_, ?_⟩
    · intro h3
      show pointCoord j 2 = 0
      rw [pointCoord_arr j ps 2 heq, if_neg (by omega)]
    · intro h2
      show pointCoord j 1 = 0
      rw [pointCoord_arr j ps 1 heq, if_neg (by omega)]
    · intro h1
      show pointCoord j 0 = 0
      rw [pointCoord_arr j ps 0 heq, if_neg (by omega)]
    · intro h1
      show pointCoord j 0 = (ps.getD 0 Json.null).getDouble
      rw [pointCoord_arr j ps 0 heq, if_pos (by omega)]
  · intro hnum
    cases e with
    | num q => exact absurd hnum (by simp [Json.isNum])
    | null => rfl
    | bool b => rfl
    | str t => rfl
    | arr elems => rfl
    | obj fields => rfl

/-- C9 witness: an object without a point member yields the all-zero
coordinates, a boolean reads as numeric 0, and a load containing such an
entry succeeds. -/
theorem point_malformed_defaults_w :
    mkPixelInfo 0 (Json.obj []) =
      { x := 0, y := 0, z := 0, index := 0, layout := Json.obj [] } ∧
    (Json.bool true).getDouble = 0 ∧
    (setLayout initRunner (.parsed (Json.arr [Json.obj []]))).1 = true :=
  ⟨(point_malformed_defaults initRunner 0 (Json.obj []) (Json.bool true)
      [] [Json.obj []]).1 rfl,
   (point_malformed_defaults initRunner 0 (Json.obj []) (Json.bool true)
      [] [Json.obj []]).2.2.1 rfl,
   (point_malformed_defaults initRunner 0 (Json.obj []) (Json.bool true)
      [] [Json.obj []]).2.2.2⟩

/-- C10: the constructor records a last-frame timestamp of zero, so a
first zero-argument frame step whose sampled wall-clock time exceeds
maxStep delivers exactly maxStep = 0.1 s (not 0, not the true elapsed
time) to the time-delta step, and hence to the effect when one is
installed and a layout is loaded. -/
theorem first_frame_clamped (f : PixelInfo → ℚ × ℚ × ℚ) (s : Runner) (now : ℚ)
    (hzero : s.lastTime = 0) (hnow : now > maxStep) :
    initRunner.lastTime = 0 ∧
    doFrame0 f s now = doFrameD f { s with lastTime := now } maxStep ∧
    (s.effectSet = true → s.layout.isArray = true →
      (doFrame0 f s now).2.head? = some (Event.nextFrame maxStep)) := by
  have hgt : now - s.lastTime > maxStep := by
    rw [hzero, sub_zero]
    exact hnow
  have hmain : doFrame0 f s now = doFrameD f { s with lastTime := now } maxStep := by
    show doFrameD f { s with lastTime := now }
        (if now - s.lastTime > maxStep then maxStep else now - s.lastTime) =
      doFrameD f { s with lastTime := now } maxStep
    rw [if_pos hgt]
  refine ⟨rfl, hmain, ?_⟩
  intro hset harr
  rw [hmain, doFrameD_pos f { s with lastTime := now } maxStep hset harr]
  rfl

/-- C10 witness: the demo runner still carries the constructor timestamp
0, and a first frame sampled at t = 5 s delivers timeDelta maxStep. -/
theorem first_frame_clamped_w :
    initRunner.lastTime = 0 ∧
    (doFrame0 demoEffect demoRunner 5).2.head? = some (Event.nextFrame maxStep) :=
  ⟨(first_frame_clamped demoEffect demoRunner 5 rfl
      (show (5 : ℚ) > 1 / 10 by norm_num)).1,
   (first_frame_clamped demoEffect demoRunner 5 rfl
      (show (5 : ℚ) > 1 / 10 by norm_num)).2.2 rfl rfl⟩
